import Mathlib

/-!
# Verification of the obsidian-confluence-publisher plugin glue logic

This file gives a shallow embedding, in Lean 4, of the plugin's own
TypeScript logic (file-selection predicates, frontmatter manipulation,
HTTP request shaping, parameter serialization, publish-result
partitioning and the publish state machine), and proves the stated
properties about it.

JavaScript values appearing in frontmatter maps and request parameters
are modelled by the inductive type `JSValue`.  Renderings that JavaScript
obtains from the environment (`Date.prototype.toISOString`,
`Date.prototype.toString`) are carried as fields of the corresponding
constructor; a generic non-`Date` object is carried together with its
`JSON.stringify` rendering.  A function-valued parameter (reachable in
`paramSerializer`) is carried as the `Option String` result of calling
it: `none` models a falsy non-string result, `some s` a string result.
-/

mutual

/-- A JavaScript value, as it can appear in frontmatter maps and in a
request's `params` record.  `vDate iso str` carries both the
`toISOString` and the `String(·)` renderings of a `Date`; `vObj json`
carries the `JSON.stringify` rendering of a plain (non-`Date`,
non-array) object; `vFun r` carries the result of calling a function
value (`none` for a falsy result). -/
inductive JSValue where
  | vNull
  | vUndefined
  | vBool (b : Bool)
  | vNum (n : Int)
  | vStr (s : String)
  | vArr (xs : JSList)
  | vDate (iso str : String)
  | vObj (json : String)
  | vFun (r : Option String)
  deriving Repr, DecidableEq

/-- A list of JavaScript values (the contents of an array value). -/
inductive JSList where
  | nil
  | cons (hd : JSValue) (tl : JSList)
  deriving Repr, DecidableEq

end

/-- Build a `JSList` from a Lean list (construction convenience). -/
def JSList.ofList : List JSValue → JSList
  | [] => .nil
  | x :: xs => .cons x (JSList.ofList xs)

/-- JavaScript `String.prototype.startsWith`, modelled on the character
list underlying the string (an executable rendering of the prefix
relation). -/
def jsStartsWith (s p : String) : Bool :=
  p.data.isPrefixOf s.data

/-- JavaScript `String.prototype.endsWith`, modelled on the character
list underlying the string. -/
def jsEndsWith (s p : String) : Bool :=
  p.data.isSuffixOf s.data

/-- Lookup in a JavaScript-object-as-association-list: the value of the
first entry with the given key, `none` when the key is absent. -/
def jsGet {α : Type} (m : List (String × α)) (k : String) : Option α :=
  (m.find? (fun p => p.1 = k)).map (fun p => p.2)

/-- JavaScript property assignment `m[k] = v`: replace the value at the
first occurrence of an existing key, keeping its position, otherwise
append the new entry (JavaScript object keys are unique, so on the maps
that model actual objects this is exactly property assignment). -/
def jsSet {α : Type} : List (String × α) → String → α → List (String × α)
  | [], k, v => [(k, v)]
  | c :: t, k, v => if c.1 = k then (k, v) :: t else c :: jsSet t k v

/-- JavaScript `delete m[k]`. -/
def jsDelete {α : Type} (m : List (String × α)) (k : String) :
    List (String × α) :=
  m.filter (fun p => p.1 ≠ k)

/-- JavaScript property read `m[k]` on a value map: an absent key and a
key present with value `undefined` are indistinguishable (both read as
`undefined`, modelled `none`). -/
def jsIndex (m : List (String × JSValue)) (k : String) : Option JSValue :=
  match jsGet m k with
  | some JSValue.vUndefined => none
  | r => r

/-- A metadata-cache entry for a file (`CachedMetadata`): its
`frontmatter` property is absent when the file has no frontmatter. -/
structure CacheEntry where
  frontmatter : Option (List (String × JSValue))
  deriving Repr, DecidableEq

/-- A markdown file of the vault together with its metadata-cache entry
(`none` models `metadataCache.getCache(path)` returning nothing). -/
structure ObsFile where
  path : String
  cache : Option CacheEntry
  deriving Repr, DecidableEq

namespace ConfluencePlugin

/-- The selection condition of `getFilesToPublish` (src/main.ts,
lines 225–229), evaluated on a file's path and the `frontmatter`
property of its cache entry:
`(file.path.startsWith(folderToPublish) && (!frontMatter ||
frontMatter["connie-publish"] !== false)) || (frontMatter &&
frontMatter["connie-publish"] === true)`. -/
def selectionCond (folderToPublish path : String)
    (frontMatter : Option (List (String × JSValue))) : Bool :=
  (jsStartsWith path folderToPublish &&
    (frontMatter.isNone ||
      !(frontMatter.elim false
          (fun fm => jsIndex fm "connie-publish" == some (JSValue.vBool false))))) ||
  (frontMatter.isSome &&
    frontMatter.elim false
      (fun fm => jsIndex fm "connie-publish" == some (JSValue.vBool true)))

/-- The per-file test of `ConfluencePlugin.getFilesToPublish`
(src/main.ts, lines 213–235): skip paths ending in `".excalidraw"`,
skip files with no metadata-cache entry (`if (!fileFM) continue`),
otherwise apply `selectionCond`. -/
def shouldPublish (folderToPublish : String) (file : ObsFile) : Bool :=
  if jsEndsWith file.path ".excalidraw" then false
  else
    match file.cache with
    | none => false
    | some fileFM => selectionCond folderToPublish file.path fileFM.frontmatter

/-- `ConfluencePlugin.getFilesToPublish` (src/main.ts, lines 208–238):
the loop pushes exactly the files passing the per-file test, in order,
so it is the filter of `shouldPublish` over `vault.getMarkdownFiles()`.
The same code appears verbatim in the second revision of `main.ts`
(src/unnamed/part_004, lines 211–241). -/
def getFilesToPublish (folderToPublish : String) (files : List ObsFile) :
    List ObsFile :=
  files.filter (shouldPublish folderToPublish)

end ConfluencePlugin

namespace ObsidianAdaptor

/-- The body of the `try` block in
`ObsidianAdaptor.getMarkdownFilesToUpload` (src/adaptors/obsidian.ts,
src/unnamed/part_002, lines 33–52), deciding one file: a missing
metadata-cache entry throws `"Missing File in Metadata Cache"`;
otherwise the same selection condition as the plugin decides. -/
def selectFileTry (folderToPublish : String) (file : ObsFile) :
    Except String Bool :=
  if jsEndsWith file.path ".excalidraw" then .ok false
  else
    match file.cache with
    | none => .error "Missing File in Metadata Cache"
    | some fileFM =>
        .ok (ConfluencePlugin.selectionCond folderToPublish file.path
          fileFM.frontmatter)

/-- The per-file test of `getMarkdownFilesToUpload`: the surrounding
`catch { /*ignore*/ }` turns a throw into skipping the file. -/
def selectFile (folderToPublish : String) (file : ObsFile) : Bool :=
  match selectFileTry folderToPublish file with
  | .ok b => b
  | .error _ => false

/-- The selection stage of `ObsidianAdaptor.getMarkdownFilesToUpload`
(src/unnamed/part_002, lines 30–56): the `filesToPublish` list built by
the first loop.  (The second loop then loads each selected file; the
loading of contents is host I/O and not part of any claim.) -/
def filesToPublishSelection (folderToPublish : String)
    (files : List ObsFile) : List ObsFile :=
  files.filter (selectFile folderToPublish)

end ObsidianAdaptor

namespace ConfluencePlugin

/-- The `processFrontMatter` mutation performed by the
`enable-publishing` command (src/main.ts, lines 547–561): inside the
configured folder the `"connie-publish"` key is deleted, outside it the
key is set to `true`. -/
def enablePublishingAction (folderToPublish path : String)
    (frontmatter : List (String × JSValue)) : List (String × JSValue) :=
  if jsStartsWith path folderToPublish then
    jsDelete frontmatter "connie-publish"
  else
    jsSet frontmatter "connie-publish" (JSValue.vBool true)

/-- The `processFrontMatter` mutation performed by the
`disable-publishing` command (src/main.ts, lines 587–600): inside the
configured folder the `"connie-publish"` key is set to `false`, outside
it the key is deleted. -/
def disablePublishingAction (folderToPublish path : String)
    (frontmatter : List (String × JSValue)) : List (String × JSValue) :=
  if jsStartsWith path folderToPublish then
    jsSet frontmatter "connie-publish" (JSValue.vBool false)
  else
    jsDelete frontmatter "connie-publish"

/-- `FailedFile` (src/main.ts, lines 37–40). -/
structure FailedFile where
  fileName : String
  reason : String
  deriving Repr, DecidableEq

/-- `UploadResults` (src/main.ts, lines 42–46), generic in the external
library's `UploadAdfFileResult` type; `errorMessage : string | null` is
modelled by an `Option`. -/
structure UploadResults (α : Type) where
  errorMessage : Option String
  failedFiles : List FailedFile
  filesUploadResult : List α
  deriving Repr, DecidableEq

/-- The `absoluteFilePath`-carrying file record reached as
`element.node.file` in `doPublish`. -/
structure AdfFileInfo where
  absoluteFilePath : String
  deriving Repr, DecidableEq

/-- The `node` of an upload result element. -/
structure AdfNode where
  file : AdfFileInfo
  deriving Repr, DecidableEq

/-- One element of the list returned by `publisher.publish(...)`
(the external library's per-file result), generic in the
`successfulUploadResult` payload type. -/
structure PublishResult (α : Type) where
  node : AdfNode
  successfulUploadResult : Option α
  reason : Option String
  deriving Repr, DecidableEq

/-- The body of the `forEach` loop of `ConfluencePlugin.doPublish`
(src/main.ts, lines 422–434): an element with a
`successfulUploadResult` is appended to `filesUploadResult`, any other
element to `failedFiles` with its `reason ?? "No Reason Provided"`. -/
def doPublishStep {α : Type} (returnVal : UploadResults α)
    (element : PublishResult α) : UploadResults α :=
  match element.successfulUploadResult with
  | some s =>
      { returnVal with
        filesUploadResult := returnVal.filesUploadResult ++ [s] }
  | none =>
      { returnVal with
        failedFiles := returnVal.failedFiles ++
          [⟨element.node.file.absoluteFilePath,
            element.reason.getD "No Reason Provided"⟩] }

/-- `ConfluencePlugin.doPublish` (src/main.ts, lines 413–437), from the
point where `publisher.publish` has returned `adrFiles`: the `forEach`
loop partitioning the elements, starting from `{ errorMessage: null,
failedFiles: [], filesUploadResult: [] }`. -/
def doPublish {α : Type} (adrFiles : List (PublishResult α)) :
    UploadResults α :=
  adrFiles.foldl doPublishStep ⟨none, [], []⟩

end ConfluencePlugin

namespace ConfluencePlugin

/-- An observable step of `executePublish` (src/main.ts, lines 83–192).
UI reads (saving cursor/scroll state, registering the modal close
handler) have no effect on the publishing flow and are not recorded. -/
inductive PublishEffect (α : Type) where
  | notice (msg : String)
  | openPublishingModal
  | updateProgress (stage : String)
  | setupProgressTracking
  | invokePublish
  | closePublishingModal
  | openCompletedModal (results : UploadResults α)
  | runCleanup
  deriving Repr, DecidableEq

/-- `ConfluencePlugin.handlePublishError` (src/main.ts, lines 58–67):
the completion modal opened on an error shows the error message and
empty result lists. -/
def handlePublishError {α : Type} (errorMessage : String) :
    UploadResults α :=
  ⟨some errorMessage, [], []⟩

/-- `ConfluencePlugin.executePublish` (src/main.ts, lines 83–192) as a
state-transition function.  The input state is the `isSyncing` flag;
the two awaited fallible steps (`getFilesToPublish` and `publishFn`)
are passed as their outcomes (`Except`, carrying the thrown error's
message).  The result is the final `isSyncing` flag together with the
ordered list of observable effects:

* if `isSyncing` is already set, show the notice and return, leaving
  the state unchanged (lines 88–91);
* otherwise set the flag, open the progress modal, update it to
  `preparing`, get the files to publish, update to `processing`, set up
  progress tracking (`cleanup`), run `publishFn`, update to
  `finalizing`, close the progress modal and open the completion modal;
* a throw is caught (lines 177–182): the progress modal is closed and
  the completion modal opened via `handlePublishError`;
* the `finally` block (lines 183–191) runs `cleanup` when it was set
  (only after `setupProgressTracking`) and always resets `isSyncing`
  to `false`. -/
def executePublish {α : Type} (isSyncing : Bool)
    (getFiles : Except String (List ObsFile))
    (publishFn : Except String (UploadResults α)) :
    Bool × List (PublishEffect α) :=
  if isSyncing then
    (isSyncing, [.notice "Syncing already ongoing"])
  else
    match getFiles with
    | .error e =>
        (false, [.openPublishingModal, .updateProgress "preparing",
                 .closePublishingModal,
                 .openCompletedModal (handlePublishError e)])
    | .ok _filesToPublish =>
        match publishFn with
        | .error e =>
            (false, [.openPublishingModal, .updateProgress "preparing",
                     .updateProgress "processing", .setupProgressTracking,
                     .invokePublish, .closePublishingModal,
                     .openCompletedModal (handlePublishError e),
                     .runCleanup])
        | .ok stats =>
            (false, [.openPublishingModal, .updateProgress "preparing",
                     .updateProgress "processing", .setupProgressTracking,
                     .invokePublish, .updateProgress "finalizing",
                     .closePublishingModal, .openCompletedModal stats,
                     .runCleanup])

end ConfluencePlugin

namespace ConfluencePluginV2

/-- An observable step of the revised `executePublish`
(src/unnamed/part_004, lines 98–195), which keeps a single
`ConfluencePublishModal` open for the whole run. -/
inductive PublishEffect (α : Type) where
  | notice (msg : String)
  | openPublishModal
  | updateStatus (stage : String)
  | setupProgressTracking
  | invokePublish
  | showResults (results : ConfluencePlugin.UploadResults α)
  | showError (message : String)
  | runCleanup
  deriving Repr, DecidableEq

/-- The revised `executePublish` (src/unnamed/part_004, lines 98–195)
as a state-transition function, in the same style as
`ConfluencePlugin.executePublish`.  The formatted error message passed
to `modal.showError` is modelled by the carried error string.  On this
version the modal is never closed by the method itself; the `finally`
block still runs `cleanup` when set and always resets `isSyncing`. -/
def executePublish {α : Type} (isSyncing : Bool)
    (getFiles : Except String (List ObsFile))
    (publishFn : Except String (ConfluencePlugin.UploadResults α)) :
    Bool × List (PublishEffect α) :=
  if isSyncing then
    (isSyncing, [.notice "Syncing already ongoing"])
  else
    match getFiles with
    | .error e =>
        (false, [.openPublishModal, .showError e])
    | .ok _filesToPublish =>
        match publishFn with
        | .error e =>
            (false, [.openPublishModal, .updateStatus "processing",
                     .setupProgressTracking, .invokePublish,
                     .showError e, .runCleanup])
        | .ok stats =>
            (false, [.openPublishModal, .updateStatus "processing",
                     .setupProgressTracking, .invokePublish,
                     .updateStatus "finalizing", .showResults stats,
                     .runCleanup])

end ConfluencePluginV2

namespace ConfluencePerPageForm

/-- The `inputType` of a per-page config property
(`ConfluencePageConfig.InputType` of the external library: the four
values the `switch` in `mapFrontmatterToConfluencePerPageUIValues`
distinguishes). -/
inductive InputType where
  | options
  | arrayText
  | boolean
  | text
  deriving Repr, DecidableEq

/-- One property of `ConfluencePageConfig.conniePerPageConfig`: its
frontmatter `key`, its `inputType` and its `default` value. -/
structure FrontmatterConfig where
  key : String
  inputType : InputType
  default : JSValue
  deriving Repr, DecidableEq

/-- One entry of `ConfluencePerPageUIValues`: `{ value, isSet }`. -/
structure ConfluencePerPageUIValue where
  value : Option JSValue
  isSet : Bool
  deriving Repr, DecidableEq

/-- `mapFrontmatterToConfluencePerPageUIValues`
(src/ConfluencePerPageForm.tsx, src/unnamed/part_005, lines 15–60),
generic in the config object (a list of `propertyKey ↦ property`
entries, as iterated by `for (const propertyKey in config)`).
An undefined `frontmatter` argument throws `"Missing frontmatter"`;
otherwise each property with `frontmatter[key] !== undefined` maps to
`{ value: frontmatterValue, isSet: true }`, and each absent one maps to
`isSet: false` with the config default as value for `options` and
`array-text` and no value for `boolean` and `text`.  (The `default:`
branch of the `switch` throws `"Missing case for inputType"`; with the
four-valued `InputType` it is unreachable and has no counterpart.) -/
def mapFrontmatterToConfluencePerPageUIValues
    (config : List (String × FrontmatterConfig))
    (frontmatter : Option (List (String × JSValue))) :
    Except String (List (String × ConfluencePerPageUIValue)) :=
  match frontmatter with
  | none => .error "Missing frontmatter"
  | some fm =>
      .ok (config.map (fun pc =>
        match jsIndex fm pc.2.key with
        | some frontmatterValue => (pc.1, ⟨some frontmatterValue, true⟩)
        | none =>
            match pc.2.inputType with
            | .options => (pc.1, ⟨some pc.2.default, false⟩)
            | .arrayText => (pc.1, ⟨some pc.2.default, false⟩)
            | .boolean => (pc.1, ⟨none, false⟩)
            | .text => (pc.1, ⟨none, false⟩)))

end ConfluencePerPageForm

namespace MyBaseClient

/-- The uppercase hexadecimal digit for `n < 16` (as produced by the
percent-escapes of `encodeURIComponent`). -/
def hexDigitChar (n : Nat) : Char :=
  if n < 10 then Char.ofNat (48 + n) else Char.ofNat (55 + n)

/-- The UTF-8 encoding of a character, as the list of its byte values
(`encodeURIComponent` percent-escapes the UTF-8 bytes of each escaped
character). -/
def utf8ByteEncoding (c : Char) : List Nat :=
  let n := c.toNat
  if n < 128 then [n]
  else if n < 2048 then [192 + n / 64, 128 + n % 64]
  else if n < 65536 then
    [224 + n / 4096, 128 + (n / 64) % 64, 128 + n % 64]
  else
    [240 + n / 262144, 128 + (n / 4096) % 64, 128 + (n / 64) % 64,
     128 + n % 64]

/-- The percent-escape `%HH` of a byte value, with uppercase hex digits
(character 37 is `%`). -/
def percentEscape (b : Nat) : List Char :=
  [Char.ofNat 37, hexDigitChar (b / 16), hexDigitChar (b % 16)]

/-- The characters `encodeURIComponent` leaves unescaped:
`A–Z a–z 0–9 - _ . ! ~ * ' ( )` (the listed code points are those of
`- _ . ! ~ * ' ( )`). -/
def isUnescapedURIComponentChar (c : Char) : Bool :=
  c.isAlpha || c.isDigit ||
    [45, 95, 46, 33, 126, 42, 39, 40, 41].contains c.toNat

/-- JavaScript's `encodeURIComponent`: unescaped characters are kept,
every other character is replaced by the uppercase percent-escapes of
its UTF-8 bytes. -/
def encodeURIComponent (s : String) : String :=
  String.mk ((s.data.map (fun c =>
    if isUnescapedURIComponentChar c then [c]
    else ((utf8ByteEncoding c).map percentEscape).flatten)).flatten)

/-- Left-to-right, non-overlapping global replacement of the pattern
`p :: ps` by `rep` in a character list; the replacement text is not
rescanned (the semantics of `String.prototype.replace` with a global
pattern).  The recursion is driven by a fuel that every step strictly
decreases while consuming at least one input character, so any fuel of
at least the input's length computes the full replacement. -/
def replaceAllAux (p : Char) (ps rep : List Char) :
    Nat → List Char → List Char
  | 0, l => l
  | _ + 1, [] => []
  | fuel + 1, c :: rest =>
      if (p :: ps).isPrefixOf (c :: rest) then
        rep ++ replaceAllAux p ps rep fuel (rest.drop ps.length)
      else
        c :: replaceAllAux p ps rep fuel rest

/-- JavaScript `String.prototype.replace` with a global string-like
pattern. -/
def jsReplaceAll (s pat rep : String) : String :=
  match pat.data with
  | [] => s
  | p :: ps => String.mk (replaceAllAux p ps rep.data s.data.length s.data)

/-- `MyBaseClient.encode` (src/MyBaseClient.ts, lines 53–61):
`encodeURIComponent` followed by the six `replace` chains restoring
`: $ , [ ]` and turning the escaped space into `+`.  The source's
case-insensitive (`gi`) patterns are modelled by their uppercase form:
`encodeURIComponent` emits only uppercase hex escapes, so the lowercase
variants never occur in its output. -/
def encode (value : String) : String :=
  jsReplaceAll (jsReplaceAll (jsReplaceAll (jsReplaceAll (jsReplaceAll
    (jsReplaceAll (encodeURIComponent value)
      "%3A" ":") "%24" "$") "%2C" ",") "%20" "+") "%5B" "[") "%5D" "]"

mutual

/-- JavaScript `String(v)` for the values that reach it here:
`String(null) = "null"`, booleans and numbers print themselves, arrays
print as their comma-join, a `Date` prints via its `toString`, a plain
object prints as `"[object Object]"`.  The source text a function would
print as is abstracted by `"function"`; no claim depends on it. -/
def jsToString : JSValue → String
  | .vNull => "null"
  | .vUndefined => "undefined"
  | .vBool b => if b then "true" else "false"
  | .vNum n => toString n
  | .vStr s => s
  | .vArr xs => jsArrayJoin xs
  | .vDate _ str => str
  | .vObj _ => "[object Object]"
  | .vFun _ => "function"

/-- `Array.prototype.join(",")` as performed on array parameter values
(src/MyBaseClient.ts, line 30): `null` and `undefined` elements join as
the empty string, every other element joins as its `String(·)`
rendering. -/
def jsArrayJoin : JSList → String
  | .nil => ""
  | .cons x .nil => jsJoinElem x
  | .cons x tl => jsJoinElem x ++ "," ++ jsArrayJoin tl

/-- The rendering of one array element under `join`. -/
def jsJoinElem : JSValue → String
  | .vNull => ""
  | .vUndefined => ""
  | .vBool b => if b then "true" else "false"
  | .vNum n => toString n
  | .vStr s => s
  | .vArr xs => jsArrayJoin xs
  | .vDate _ str => str
  | .vObj _ => "[object Object]"
  | .vFun _ => "function"

end

end MyBaseClient

namespace MyBaseClient

/-- The body of `Object.entries(parameters).forEach` in
`MyBaseClient.paramSerializer` (src/MyBaseClient.ts, lines 23–48),
deciding what one entry contributes to `parts`:

* `null` and `undefined` values are skipped (lines 24–26);
* an array value is first turned into its comma-join (lines 28–31); the
  joined string then falls through the `Date`/object/`Function` checks
  and is pushed as `encode(key)=encode(value)`;
* a `Date` value is turned into its ISO string (lines 33–35);
* every other non-`null` `typeof "object"` value is turned into its
  `JSON.stringify` rendering (lines 36–38);
* a `Function` value is called and its result pushed verbatim when
  truthy, skipped when falsy (lines 39–43) — no key and no encoding;
* every remaining value is pushed as `encode(key)=encode(value)`
  (line 45), with the template literal coercing it via `String(·)`. -/
def serializeParamEntry (key : String) (value : JSValue) : Option String :=
  match value with
  | .vNull => none
  | .vUndefined => none
  | .vArr xs => some (encode key ++ "=" ++ encode (jsArrayJoin xs))
  | .vDate iso _ => some (encode key ++ "=" ++ encode iso)
  | .vObj json => some (encode key ++ "=" ++ encode json)
  | .vFun r =>
      match r with
      | some part => if part.isEmpty then none else some part
      | none => none
  | v => some (encode key ++ "=" ++ encode (jsToString v))

/-- `MyBaseClient.paramSerializer` (src/MyBaseClient.ts, lines 20–51):
the contributed parts, joined with `"&"`. -/
def paramSerializer (parameters : List (String × JSValue)) : String :=
  String.intercalate "&"
    (parameters.filterMap (fun kv => serializeParamEntry kv.1 kv.2))

/-- Modelled from the claim's wording (C3): the contribution of one
entry as the claim describes it — entries with `null` or `undefined`
values omitted, array values joined with commas, `Date` values replaced
by their ISO-8601 string, every other non-null object value replaced by
its JSON string, and each remaining key and value percent-encoded into
a `key=value` pair.  It differs from `serializeParamEntry` only on
function values. -/
def claimSerializeParamEntry (key : String) (value : JSValue) :
    Option String :=
  match value with
  | .vNull => none
  | .vUndefined => none
  | .vArr xs => some (encode key ++ "=" ++ encode (jsArrayJoin xs))
  | .vDate iso _ => some (encode key ++ "=" ++ encode iso)
  | .vObj json => some (encode key ++ "=" ++ encode json)
  | v => some (encode key ++ "=" ++ encode (jsToString v))

/-- Modelled from the claim's wording (C3): the resulting `key=value`
pairs joined with `"&"`. -/
def claimParamSerializer (parameters : List (String × JSValue)) : String :=
  String.intercalate "&"
    (parameters.filterMap (fun kv => claimSerializeParamEntry kv.1 kv.2))

/-- Whether a parameter value is a function value (the single shape on
which `paramSerializer` departs from the claim's description). -/
def isFunctionValue : JSValue → Bool
  | .vFun _ => true
  | _ => false

end MyBaseClient

namespace MyBaseClient

/-- `MyBaseClient.urlSuffix` (src/MyBaseClient.ts, line 15). -/
def urlSuffix : String := "/wiki/rest"

/-- JavaScript `String.prototype.toUpperCase`, modelled characterwise
(exact on the ASCII method names that reach it). -/
def jsToUpperCase (s : String) : String :=
  String.mk (s.data.map Char.toUpper)

/-- The `Config` of the client, as `sendRequest` reads it: the `host`,
the `noCheckAtlassianToken` flag and the headers of an optional
`baseRequestConfig` (`[]` models an absent `baseRequestConfig`).  The
`authentication` is consumed only through
`AuthenticationService.getAuthenticationToken`, an external call whose
result is passed separately to `modifiedRequestConfig`. -/
structure ClientConfig where
  host : String
  noCheckAtlassianToken : Bool
  baseRequestHeaders : List (String × Option String)
  deriving Repr, DecidableEq

/-- The `data` of a request: either a plain value (sent as
`JSON.stringify(data)`) or a `FormData`-like object offering
`getHeaders()` and `getBuffer()` (multipart uploads). -/
inductive RequestData where
  | js (v : JSValue)
  | form (headers : List (String × Option String)) (buffer : String)
  deriving Repr, DecidableEq

/-- A `RequestConfig` as handed to `sendRequest`: header values may be
`undefined` (`none`). -/
structure RequestConfig where
  url : String
  method : Option String
  headers : Option (List (String × Option String))
  params : List (String × JSValue)
  data : RequestData
  deriving Repr, DecidableEq

/-- `requestBody[1]`: either `JSON.stringify(requestConfig.data)`
(carried unserialized — no claim concerns the body text) or the
multipart buffer `requestConfig.data.getBuffer().buffer`. -/
inductive RequestBody where
  | stringified (data : RequestData)
  | buffer (b : String)
  deriving Repr, DecidableEq

/-- The request object handed to Obsidian's `requestUrl`
(`modifiedRequestConfig`, src/MyBaseClient.ts, lines 113–141).  The
spread `...requestConfig` keeps `params`; `delete
modifiedRequestConfig.data` leaves `data` always `none` (the field is
kept in the model so the deletion is observable); `throwFlag` is the
`throw: false` property. -/
structure SentRequest where
  url : String
  method : String
  headers : List (String × String)
  contentType : String
  throwFlag : Bool
  body : RequestBody
  data : Option RequestData
  params : List (String × JSValue)
  deriving Repr, DecidableEq

/-- The header normalization at the top of `sendRequest`
(src/MyBaseClient.ts, lines 90–95): when headers are present and carry
a truthy `"content-type"` entry, copy it to `"Content-Type"` and delete
the lowercase key.  (`?.toString()` of an `undefined` entry is
`undefined`, and an empty string is falsy; both skip the
normalization.) -/
def normalizeContentTypeHeader
    (headers : Option (List (String × Option String))) :
    Option (List (String × Option String)) :=
  match headers with
  | none => none
  | some hs =>
      match jsGet hs "content-type" with
      | some (some contentType) =>
          if contentType.isEmpty then some hs
          else some (jsDelete (jsSet hs "Content-Type" (some contentType))
            "content-type")
      | _ => some hs

/-- `requestContentType` (src/MyBaseClient.ts, lines 101–103):
`(requestConfig.headers ?? {})["Content-Type"]?.toString() ??
"application/json"`, read from the normalized headers. -/
def requestContentTypeOf
    (headers : Option (List (String × Option String))) : String :=
  match jsGet (headers.getD []) "Content-Type" with
  | some (some contentType) => contentType
  | _ => "application/json"

/-- The content type a request will effectively be sent with. -/
def effectiveContentType (rc : RequestConfig) : String :=
  requestContentTypeOf (normalizeContentTypeHeader rc.headers)

/-- `MyBaseClient.removeUndefinedProperties` (src/MyBaseClient.ts,
lines 63–77): drop the entries whose value is `undefined`.  (The
source's `filter` + `reduce` into a fresh object preserves entry order;
re-insertion deduplication is the identity on the duplicate-free header
maps this is applied to.) -/
def removeUndefinedProperties (obj : List (String × Option String)) :
    List (String × String) :=
  obj.filterMap (fun kv => kv.2.map (fun v => (kv.1, v)))

/-- JavaScript object spread `{ ...acc, ...extra }`: assign the entries
of `extra` over `acc` in order (later keys override in place). -/
def spreadInto {α : Type} (acc extra : List (String × α)) :
    List (String × α) :=
  extra.foldl (fun m kv => jsSet m kv.1 kv.2) acc

/-- The headers of `modifiedRequestConfig` (src/MyBaseClient.ts,
lines 115–134): the object literal layering, in order, the `User-Agent`
/ `Accept` / `X-Atlassian-Token` defaults, the base request config's
headers, the `Authorization` token, the request's own (normalized)
headers, the `Content-Type`, and the multipart form headers
(`requestBody[0]`, `{}` for a JSON request), then
`removeUndefinedProperties`. -/
def builtHeaders (config : ClientConfig) (authorizationToken : String)
    (normalizedHeaders : Option (List (String × Option String)))
    (requestContentType : String)
    (bodyHeaders : List (String × Option String)) :
    List (String × String) :=
  removeUndefinedProperties
    (spreadInto
      (jsSet
        (spreadInto
          (jsSet
            (spreadInto
              [("User-Agent", some "Obsidian.md"),
               ("Accept", some "application/json"),
               ("X-Atlassian-Token",
                 if config.noCheckAtlassianToken then some "no-check"
                 else none)]
              config.baseRequestHeaders)
            "Authorization" (some authorizationToken))
          (normalizedHeaders.getD []))
        "Content-Type" (some requestContentType))
      bodyHeaders)

/-- `modifiedRequestConfig` (src/MyBaseClient.ts, lines 87–141): the
request object `sendRequest` builds and hands to `requestUrl`.
`authorizationToken` is the awaited result of the external
`AuthenticationService.getAuthenticationToken` call.  Calling
`getHeaders()` on a non-`FormData` `data` when the content type says
`multipart/form-data` throws a `TypeError` (the `Except.error`
case). -/
def modifiedRequestConfig (config : ClientConfig)
    (authorizationToken : String) (rc : RequestConfig) :
    Except String SentRequest :=
  let headers1 := normalizeContentTypeHeader rc.headers
  let params := paramSerializer rc.params
  let requestContentType := requestContentTypeOf headers1
  let mk := fun (bodyHeaders : List (String × Option String))
      (body : RequestBody) =>
    ({ url := config.host ++ urlSuffix ++ rc.url ++ "?" ++ params
       method := (rc.method.map jsToUpperCase).getD "GET"
       headers := builtHeaders config authorizationToken headers1
         requestContentType bodyHeaders
       contentType := requestContentType
       throwFlag := false
       body := body
       data := none
       params := rc.params } : SentRequest)
  if jsStartsWith requestContentType "multipart/form-data" then
    match rc.data with
    | .form formHeaders buffer => .ok (mk formHeaders (.buffer buffer))
    | .js _ => .error "requestConfig.data.getHeaders is not a function"
  else
    .ok (mk [] (.stringified rc.data))

/-- The response Obsidian's `requestUrl` resolves with, as `sendRequest`
reads it: `status`, `text` and the parsed `json` body. -/
structure HostResponse where
  status : Nat
  text : String
  json : JSValue
  deriving Repr, DecidableEq

/-- An error value as `sendRequest` can throw it: the `HTTPError` of
src/MyBaseClient.ts (lines 199–209), carrying `response: { status,
data }`, or a plain `Error` with a message. -/
inductive ClientError where
  | httpError (msg : String) (status : Nat) (data : String)
  | jsError (msg : String)
  deriving Repr, DecidableEq

/-- A thrown JavaScript value: an `Error` instance or something else
(carried as its stringification). -/
inductive Thrown where
  | error (e : ClientError)
  | nonError (s : String)
  deriving Repr, DecidableEq

/-- `MyBaseClient.normalizeError` (src/MyBaseClient.ts, lines 181–191):
an `Error` instance is returned unchanged, anything else is wrapped in
a new `Error` with its stringification as message. -/
def normalizeError : Thrown → ClientError
  | .error e => e
  | .nonError s => .jsError s

/-- The response handling of `sendRequest` (src/MyBaseClient.ts, lines
144–175), given the response `requestUrl` resolved with: a status of
400 or above throws ``HTTPError (`Received a ${status}`, { status,
data: text })``, which the `catch` block passes through
`normalizeError` (an identity on `Error` instances) and re-throws;
otherwise the parsed JSON body is returned. -/
def handleResponse (response : HostResponse) : Except ClientError JSValue :=
  if 400 ≤ response.status then
    .error (normalizeError (.error (.httpError
      ("Received a " ++ toString response.status)
      response.status response.text)))
  else
    .ok response.json

/-- `MyBaseClient.sendRequest` (src/MyBaseClient.ts, lines 86–176) from
request configuration to outcome: build `modifiedRequestConfig` (a
`TypeError` thrown there is also normalized and re-thrown by the
`catch` block), call the host primitive — whose response is passed in
as `response` — and handle the response. -/
def sendRequest (config : ClientConfig) (authorizationToken : String)
    (rc : RequestConfig) (response : HostResponse) :
    Except ClientError JSValue :=
  match modifiedRequestConfig config authorizationToken rc with
  | .error e => .error (normalizeError (.error (.jsError e)))
  | .ok _sent => handleResponse response

end MyBaseClient

/-! ## Association-list lemmas for the JavaScript object model -/

theorem jsGet_cons {α : Type} (a : String) (b : α)
    (t : List (String × α)) (k : String) :
    jsGet ((a, b) :: t) k = if a = k then some b else jsGet t k := by
  by_cases h : a = k <;> simp [jsGet, List.find?_cons, h]

theorem jsSet_cons {α : Type} (a : String) (b : α)
    (t : List (String × α)) (k : String) (v : α) :
    jsSet ((a, b) :: t) k v =
      if a = k then (k, v) :: t else (a, b) :: jsSet t k v := by
  by_cases h : a = k <;> simp [jsSet, h]

theorem jsDelete_cons {α : Type} (a : String) (b : α)
    (t : List (String × α)) (k : String) :
    jsDelete ((a, b) :: t) k =
      if a = k then jsDelete t k else (a, b) :: jsDelete t k := by
  by_cases h : a = k <;> simp [jsDelete, List.filter_cons, h]

theorem jsGet_jsSet_self {α : Type} (m : List (String × α)) (k : String)
    (v : α) : jsGet (jsSet m k v) k = some v := by
  induction m with
  | nil => simp [jsSet, jsGet_cons]
  | cons c t ih =>
      obtain ⟨a, b⟩ := c
      rw [jsSet_cons]
      by_cases h : a = k
      · simp [h, jsGet_cons]
      · simpa [h, jsGet_cons] using ih

theorem jsGet_jsSet_ne {α : Type} (m : List (String × α)) {k k2 : String}
    (v : α) (h : k ≠ k2) : jsGet (jsSet m k v) k2 = jsGet m k2 := by
  induction m with
  | nil => simp [jsSet, jsGet_cons, h]
  | cons c t ih =>
      obtain ⟨a, b⟩ := c
      rw [jsSet_cons]
      by_cases ha : a = k
      · subst ha
        simp [jsGet_cons, h]
      · simp only [ha, if_false]
        rw [jsGet_cons, jsGet_cons, ih]

theorem jsGet_jsDelete_self {α : Type} (m : List (String × α))
    (k : String) : jsGet (jsDelete m k) k = none := by
  induction m with
  | nil => rfl
  | cons c t ih =>
      obtain ⟨a, b⟩ := c
      rw [jsDelete_cons]
      by_cases h : a = k
      · simpa [h] using ih
      · simpa [h, jsGet_cons] using ih

theorem jsGet_jsDelete_ne {α : Type} (m : List (String × α))
    {k k2 : String} (h : k ≠ k2) :
    jsGet (jsDelete m k) k2 = jsGet m k2 := by
  induction m with
  | nil => rfl
  | cons c t ih =>
      obtain ⟨a, b⟩ := c
      rw [jsDelete_cons, jsGet_cons]
      by_cases ha : a = k
      · subst ha
        rw [if_pos rfl, ih, if_neg h]
      · rw [if_neg ha, jsGet_cons, ih]

theorem spreadInto_nil {α : Type} (acc : List (String × α)) :
    MyBaseClient.spreadInto acc [] = acc := rfl

theorem jsGet_spreadInto_of_none {α : Type} {extra : List (String × α)}
    {k : String} (acc : List (String × α)) (h : jsGet extra k = none) :
    jsGet (MyBaseClient.spreadInto acc extra) k = jsGet acc k := by
  induction extra generalizing acc with
  | nil => rfl
  | cons c t ih =>
      obtain ⟨a, b⟩ := c
      rw [jsGet_cons] at h
      by_cases ha : a = k
      · simp [ha] at h
      · simp only [ha, if_false] at h
        show jsGet (MyBaseClient.spreadInto (jsSet acc a b) t) k = jsGet acc k
        rw [ih (jsSet acc a b) h, jsGet_jsSet_ne _ _ ha]

/-- Every entry of `m` with key `k` carries an `undefined` value. -/
def keyAllUndefined {α : Type} (m : List (String × Option α))
    (k : String) : Prop :=
  ∀ p ∈ m, p.1 = k → p.2 = none

theorem keyAllUndefined_of_jsGet_none {α : Type}
    {m : List (String × Option α)} {k : String}
    (h : jsGet m k = none) : keyAllUndefined m k := by
  induction m with
  | nil => intro p hp _; simp at hp
  | cons c t ih =>
      obtain ⟨a, b⟩ := c
      rw [jsGet_cons] at h
      by_cases ha : a = k
      · simp [ha] at h
      · simp only [ha, if_false] at h
        intro p hp hk
        rcases List.mem_cons.1 hp with h1 | h1
        · subst h1
          exact absurd hk ha
        · exact ih h p h1 hk

theorem keyAllUndefined_jsSet {α : Type} {m : List (String × Option α)}
    {k a : String} {b : Option α} (h : keyAllUndefined m k) (ha : a ≠ k) :
    keyAllUndefined (jsSet m a b) k := by
  induction m with
  | nil =>
      intro p hp hk
      simp only [jsSet, List.mem_singleton] at hp
      subst hp
      exact absurd hk ha
  | cons c t ih =>
      obtain ⟨a0, b0⟩ := c
      rw [jsSet_cons]
      have htail : keyAllUndefined t k :=
        fun q hq => h q (List.mem_cons_of_mem _ hq)
      by_cases h0 : a0 = a
      · subst h0
        simp only [if_true]
        intro p hp hk
        rcases List.mem_cons.1 hp with h1 | h1
        · subst h1
          exact absurd hk ha
        · exact htail p h1 hk
      · simp only [h0, if_false]
        intro p hp hk
        rcases List.mem_cons.1 hp with h1 | h1
        · subst h1
          exact h (a0, b0) (List.mem_cons_self _ _) hk
        · exact ih htail p h1 hk

theorem keyAllUndefined_spreadInto {α : Type}
    {extra : List (String × Option α)} {k : String}
    (acc : List (String × Option α)) (hacc : keyAllUndefined acc k)
    (h : jsGet extra k = none) :
    keyAllUndefined (MyBaseClient.spreadInto acc extra) k := by
  induction extra generalizing acc with
  | nil => exact hacc
  | cons c t ih =>
      obtain ⟨a, b⟩ := c
      rw [jsGet_cons] at h
      by_cases ha : a = k
      · simp [ha] at h
      · simp only [ha, if_false] at h
        exact ih (jsSet acc a b) (keyAllUndefined_jsSet hacc ha) h

theorem jsGet_removeUndefinedProperties_of_some
    {m : List (String × Option String)} {k : String} {v : String}
    (h : jsGet m k = some (some v)) :
    jsGet (MyBaseClient.removeUndefinedProperties m) k = some v := by
  induction m with
  | nil => simp [jsGet] at h
  | cons c t ih =>
      obtain ⟨a, b⟩ := c
      rw [jsGet_cons] at h
      by_cases ha : a = k
      · simp only [ha, if_true, Option.some_inj] at h
        subst h
        simp [MyBaseClient.removeUndefinedProperties, jsGet_cons, ha]
      · simp only [ha, if_false] at h
        cases b with
        | none =>
            simpa [MyBaseClient.removeUndefinedProperties] using ih h
        | some u =>
            simpa [MyBaseClient.removeUndefinedProperties, jsGet_cons,
              ha] using ih h

theorem jsGet_removeUndefinedProperties_of_keyAllUndefined
    {m : List (String × Option String)} {k : String}
    (h : keyAllUndefined m k) :
    jsGet (MyBaseClient.removeUndefinedProperties m) k = none := by
  induction m with
  | nil => rfl
  | cons c t ih =>
      obtain ⟨a, b⟩ := c
      have htail : keyAllUndefined t k :=
        fun q hq => h q (List.mem_cons_of_mem _ hq)
      by_cases ha : a = k
      · have hb : b = none := h (a, b) (List.mem_cons_self _ _) ha
        subst hb
        simpa [MyBaseClient.removeUndefinedProperties] using ih htail
      · cases b with
        | none =>
            simpa [MyBaseClient.removeUndefinedProperties] using ih htail
        | some u =>
            simpa [MyBaseClient.removeUndefinedProperties, jsGet_cons,
              ha] using ih htail

/-! ## Claim theorems -/

/-- The two per-file selection tests agree on every file (shared helper
for the selection claims). -/
theorem selectFile_eq_shouldPublish (folderToPublish : String)
    (file : ObsFile) :
    ObsidianAdaptor.selectFile folderToPublish file =
      ConfluencePlugin.shouldPublish folderToPublish file := by
  by_cases h : jsEndsWith file.path ".excalidraw" <;>
    cases hc : file.cache <;>
      simp [ObsidianAdaptor.selectFile, ObsidianAdaptor.selectFileTry,
        ConfluencePlugin.shouldPublish, h, hc]

/-- C7: for every vault state, `ConfluencePlugin.getFilesToPublish` and
the selection stage of `ObsidianAdaptor.getMarkdownFilesToUpload`
select the same files. -/
theorem C7_selection_equivalent (folderToPublish : String)
    (files : List ObsFile) :
    ConfluencePlugin.getFilesToPublish folderToPublish files =
      ObsidianAdaptor.filesToPublishSelection folderToPublish files := by
  unfold ConfluencePlugin.getFilesToPublish
    ObsidianAdaptor.filesToPublishSelection
  exact List.filter_congr
    (fun f _ => (selectFile_eq_shouldPublish folderToPublish f).symm)

/-- C8: a file whose path ends with `".excalidraw"` is never selected
by either `getFilesToPublish` or the selection stage of
`getMarkdownFilesToUpload`, whatever its frontmatter and however the
publish folder is configured. -/
theorem C8_excalidraw_never_selected (folderToPublish : String)
    (files : List ObsFile) (file : ObsFile)
    (h : jsEndsWith file.path ".excalidraw" = true) :
    file ∉ ConfluencePlugin.getFilesToPublish folderToPublish files ∧
    file ∉ ObsidianAdaptor.filesToPublishSelection folderToPublish files := by
  constructor <;> intro hmem
  · have hp := (List.mem_filter.1 hmem).2
    simp [ConfluencePlugin.shouldPublish, h] at hp
  · have hp := (List.mem_filter.1 hmem).2
    rw [selectFile_eq_shouldPublish] at hp
    simp [ConfluencePlugin.shouldPublish, h] at hp

/-- The C8 witness file: an `.excalidraw` path inside the publish
folder with `connie-publish: true` frontmatter. -/
def c8File : ObsFile :=
  ⟨"notes/d.excalidraw", some ⟨some [("connie-publish", JSValue.vBool true)]⟩⟩

/-- C8, instantiated: the witness file is excluded even though its
frontmatter and folder would otherwise select it. -/
theorem C8_witness :
    jsEndsWith c8File.path ".excalidraw" = true ∧
    c8File ∉ ConfluencePlugin.getFilesToPublish "notes" [c8File] ∧
    c8File ∉ ObsidianAdaptor.filesToPublishSelection "notes" [c8File] :=
  ⟨by decide,
   (C8_excalidraw_never_selected "notes" [c8File] c8File (by decide)).1,
   (C8_excalidraw_never_selected "notes" [c8File] c8File (by decide)).2⟩

/-- C1: a markdown file of the vault whose path does not end in
`".excalidraw"` and whose metadata-cache entry exists is selected (by
`getFilesToPublish` and by the selection stage of
`getMarkdownFilesToUpload`) iff (a) its path starts with the configured
`folderToPublish` and its frontmatter is absent or its
`"connie-publish"` key is not the boolean `false`, or (b) its
frontmatter is present and its `"connie-publish"` key is the boolean
`true`. -/
theorem C1_selection_predicate (folderToPublish : String)
    (files : List ObsFile) (file : ObsFile) (c : CacheEntry)
    (hmem : file ∈ files)
    (hex : jsEndsWith file.path ".excalidraw" = false)
    (hc : file.cache = some c) :
    (file ∈ ConfluencePlugin.getFilesToPublish folderToPublish files ↔
      ((jsStartsWith file.path folderToPublish = true ∧
        (c.frontmatter = none ∨
          c.frontmatter.bind (fun fm => jsIndex fm "connie-publish") ≠
            some (JSValue.vBool false))) ∨
       (c.frontmatter ≠ none ∧
        c.frontmatter.bind (fun fm => jsIndex fm "connie-publish") =
          some (JSValue.vBool true)))) ∧
    (file ∈ ObsidianAdaptor.filesToPublishSelection folderToPublish files ↔
      ((jsStartsWith file.path folderToPublish = true ∧
        (c.frontmatter = none ∨
          c.frontmatter.bind (fun fm => jsIndex fm "connie-publish") ≠
            some (JSValue.vBool false))) ∨
       (c.frontmatter ≠ none ∧
        c.frontmatter.bind (fun fm => jsIndex fm "connie-publish") =
          some (JSValue.vBool true)))) := by
  have key : ConfluencePlugin.shouldPublish folderToPublish file = true ↔
      ((jsStartsWith file.path folderToPublish = true ∧
        (c.frontmatter = none ∨
          c.frontmatter.bind (fun fm => jsIndex fm "connie-publish") ≠
            some (JSValue.vBool false))) ∨
       (c.frontmatter ≠ none ∧
        c.frontmatter.bind (fun fm => jsIndex fm "connie-publish") =
          some (JSValue.vBool true))) := by
    cases cf : c.frontmatter <;>
      simp [ConfluencePlugin.shouldPublish, hex, hc,
        ConfluencePlugin.selectionCond, cf]
  constructor
  · rw [ConfluencePlugin.getFilesToPublish, List.mem_filter]
    simp only [hmem, true_and]
    exact key
  · rw [ObsidianAdaptor.filesToPublishSelection, List.mem_filter]
    simp only [hmem, true_and]
    rw [selectFile_eq_shouldPublish]
    exact key

/-- The C1 witness file: inside the publish folder, frontmatter
present, `connie-publish` not `false`. -/
def c1File : ObsFile :=
  ⟨"notes/a.md", some ⟨some [("tags", JSValue.vStr "x")]⟩⟩

/-- C1, instantiated: the witness file is selected by both selection
functions, with every hypothesis evaluated on the concrete input. -/
theorem C1_witness :
    c1File ∈ ConfluencePlugin.getFilesToPublish "notes" [c1File] ∧
    c1File ∈ ObsidianAdaptor.filesToPublishSelection "notes" [c1File] := by
  have h := C1_selection_predicate "notes" [c1File] c1File
    ⟨some [("tags", JSValue.vStr "x")]⟩ (by decide) (by decide) rfl
  exact ⟨h.1.mpr (Or.inl ⟨by decide, Or.inr (by decide)⟩),
         h.2.mpr (Or.inl ⟨by decide, Or.inr (by decide)⟩)⟩

/-- C5: on a file whose path does not end in `".excalidraw"`, running
the enable-publishing command's `processFrontMatter` action makes the
file satisfy the publishing-selection predicate, and running the
disable-publishing command's action makes it fail the predicate —
whether or not the file's path lies inside the configured folder. -/
theorem C5_enable_disable_commands (folderToPublish path : String)
    (frontmatter : List (String × JSValue))
    (hex : jsEndsWith path ".excalidraw" = false) :
    ConfluencePlugin.shouldPublish folderToPublish
      ⟨path, some ⟨some (ConfluencePlugin.enablePublishingAction
        folderToPublish path frontmatter)⟩⟩ = true ∧
    ConfluencePlugin.shouldPublish folderToPublish
      ⟨path, some ⟨some (ConfluencePlugin.disablePublishingAction
        folderToPublish path frontmatter)⟩⟩ = false := by
  constructor <;> by_cases hs : jsStartsWith path folderToPublish
  · have hd : jsGet (jsDelete frontmatter "connie-publish")
        "connie-publish" = none := jsGet_jsDelete_self _ _
    simp [ConfluencePlugin.shouldPublish, hex,
      ConfluencePlugin.enablePublishingAction, hs,
      ConfluencePlugin.selectionCond, jsIndex, hd]
  · have hd : jsGet (jsSet frontmatter "connie-publish"
        (JSValue.vBool true)) "connie-publish" = some (JSValue.vBool true) :=
      jsGet_jsSet_self _ _ _
    simp [ConfluencePlugin.shouldPublish, hex,
      ConfluencePlugin.enablePublishingAction, hs,
      ConfluencePlugin.selectionCond, jsIndex, hd]
  · have hd : jsGet (jsSet frontmatter "connie-publish"
        (JSValue.vBool false)) "connie-publish" =
        some (JSValue.vBool false) := jsGet_jsSet_self _ _ _
    simp [ConfluencePlugin.shouldPublish, hex,
      ConfluencePlugin.disablePublishingAction, hs,
      ConfluencePlugin.selectionCond, jsIndex, hd]
  · have hd : jsGet (jsDelete frontmatter "connie-publish")
        "connie-publish" = none := jsGet_jsDelete_self _ _
    simp [ConfluencePlugin.shouldPublish, hex,
      ConfluencePlugin.disablePublishingAction, hs,
      ConfluencePlugin.selectionCond, jsIndex, hd]

/-- C5, instantiated at a file outside the publish folder with existing
unrelated frontmatter. -/
theorem C5_witness :
    ConfluencePlugin.shouldPublish "notes"
      ⟨"journal/b.md", some ⟨some (ConfluencePlugin.enablePublishingAction
        "notes" "journal/b.md" [("title", JSValue.vStr "B")])⟩⟩ = true ∧
    ConfluencePlugin.shouldPublish "notes"
      ⟨"journal/b.md", some ⟨some (ConfluencePlugin.disablePublishingAction
        "notes" "journal/b.md" [("title", JSValue.vStr "B")])⟩⟩ = false :=
  C5_enable_disable_commands "notes" "journal/b.md"
    [("title", JSValue.vStr "B")] (by decide)

/-- C4: at most one publish runs at a time.  In both revisions of
`executePublish`, a call made while `isSyncing` is set only shows the
notice, leaves the state unchanged and never invokes the publish
function; and every started run — whether the files lookup or the
publish function succeeds or throws — ends with `isSyncing` reset to
`false`. -/
theorem C4_syncing_guard (α : Type) (isSyncing : Bool)
    (getFiles : Except String (List ObsFile))
    (publishFn : Except String (ConfluencePlugin.UploadResults α)) :
    (isSyncing = true →
      ConfluencePlugin.executePublish isSyncing getFiles publishFn =
        (isSyncing,
         [ConfluencePlugin.PublishEffect.notice "Syncing already ongoing"]) ∧
      ConfluencePluginV2.executePublish isSyncing getFiles publishFn =
        (isSyncing,
         [ConfluencePluginV2.PublishEffect.notice "Syncing already ongoing"]) ∧
      ConfluencePlugin.PublishEffect.invokePublish ∉
        (ConfluencePlugin.executePublish isSyncing getFiles publishFn).2 ∧
      ConfluencePluginV2.PublishEffect.invokePublish ∉
        (ConfluencePluginV2.executePublish isSyncing getFiles publishFn).2) ∧
    (isSyncing = false →
      (ConfluencePlugin.executePublish isSyncing getFiles publishFn).1 =
        false ∧
      (ConfluencePluginV2.executePublish isSyncing getFiles publishFn).1 =
        false) := by
  constructor
  · intro h
    subst h
    refine ⟨rfl, rfl, ?_, ?_⟩ <;>
      simp [ConfluencePlugin.executePublish, ConfluencePluginV2.executePublish]
  · intro h
    subst h
    cases getFiles <;> cases publishFn <;>
      simp [ConfluencePlugin.executePublish, ConfluencePluginV2.executePublish]

/-- C4, instantiated: a second call during a sync is a no-op notice in
both revisions, and a completed run resets the flag. -/
theorem C4_witness :
    (@ConfluencePlugin.executePublish Nat true (.ok [])
        (.ok ⟨none, [], []⟩) =
      (true,
       [ConfluencePlugin.PublishEffect.notice "Syncing already ongoing"])) ∧
    (@ConfluencePluginV2.executePublish Nat true (.ok [])
        (.ok ⟨none, [], []⟩) =
      (true,
       [ConfluencePluginV2.PublishEffect.notice "Syncing already ongoing"])) ∧
    ((@ConfluencePlugin.executePublish Nat false (.ok [])
        (.ok ⟨none, [], []⟩)).1 = false) ∧
    ((@ConfluencePluginV2.executePublish Nat false (.error "boom")
        (.ok ⟨none, [], []⟩)).1 = false) :=
  ⟨((C4_syncing_guard Nat true (.ok []) (.ok ⟨none, [], []⟩)).1 rfl).1,
   ((C4_syncing_guard Nat true (.ok []) (.ok ⟨none, [], []⟩)).1 rfl).2.1,
   ((C4_syncing_guard Nat false (.ok []) (.ok ⟨none, [], []⟩)).2 rfl).1,
   ((C4_syncing_guard Nat false (.error "boom") (.ok ⟨none, [], []⟩)).2 rfl).2⟩

/-- The `doPublish` fold with a generalized accumulator (helper). -/
theorem doPublish_foldl_eq (α : Type)
    (adrFiles : List (ConfluencePlugin.PublishResult α))
    (acc : ConfluencePlugin.UploadResults α) :
    adrFiles.foldl ConfluencePlugin.doPublishStep acc =
      ⟨acc.errorMessage,
       acc.failedFiles ++
         (adrFiles.filter
           (fun e => e.successfulUploadResult.isNone)).map
           (fun e => ⟨e.node.file.absoluteFilePath,
             e.reason.getD "No Reason Provided"⟩),
       acc.filesUploadResult ++
         adrFiles.filterMap (fun e => e.successfulUploadResult)⟩ := by
  induction adrFiles generalizing acc with
  | nil => simp
  | cons e t ih =>
      cases he : e.successfulUploadResult with
      | some s =>
          rw [List.foldl_cons, ih]
          simp [ConfluencePlugin.doPublishStep, he, List.filter_cons,
            List.filterMap_cons]
      | none =>
          rw [List.foldl_cons, ih]
          simp [ConfluencePlugin.doPublishStep, he, List.filter_cons,
            List.filterMap_cons]

/-- Elements kept by `filterMap f` and elements where `f` yields
nothing partition the list's length (helper). -/
theorem length_filterMap_add_length_filter_none (α β : Type)
    (f : α → Option β) (l : List α) :
    (l.filterMap f).length + (l.filter (fun e => (f e).isNone)).length =
      l.length := by
  induction l with
  | nil => simp
  | cons e t ih =>
      cases he : f e <;>
        simp [List.filterMap_cons, List.filter_cons, he] <;> omega

/-- C10: `doPublish` partitions the publisher's results — each element
with a `successfulUploadResult` lands in `filesUploadResult` and each
element without one lands in `failedFiles` with reason defaulting to
`"No Reason Provided"` — the two output lengths sum to the input
length, and the returned `errorMessage` is always `null`. -/
theorem C10_doPublish_partition (α : Type)
    (adrFiles : List (ConfluencePlugin.PublishResult α)) :
    ConfluencePlugin.doPublish adrFiles =
      ⟨none,
       (adrFiles.filter
         (fun e => e.successfulUploadResult.isNone)).map
         (fun e => ⟨e.node.file.absoluteFilePath,
           e.reason.getD "No Reason Provided"⟩),
       adrFiles.filterMap (fun e => e.successfulUploadResult)⟩ ∧
    (ConfluencePlugin.doPublish adrFiles).filesUploadResult.length +
      (ConfluencePlugin.doPublish adrFiles).failedFiles.length =
        adrFiles.length ∧
    (ConfluencePlugin.doPublish adrFiles).errorMessage = none := by
  have h := doPublish_foldl_eq α adrFiles ⟨none, [], []⟩
  refine ⟨by simpa [ConfluencePlugin.doPublish] using h, ?_, ?_⟩
  · rw [ConfluencePlugin.doPublish, h]
    simpa using
      length_filterMap_add_length_filter_none
        (ConfluencePlugin.PublishResult α) α
        (fun e => e.successfulUploadResult) adrFiles
  · rw [ConfluencePlugin.doPublish, h]

/-- C2: whenever `sendRequest` reaches the host's request primitive
(the built request config is well formed), it throws an `HTTPError`
carrying the response status and response text iff the response status
is at least 400, and for every status below 400 it returns the parsed
JSON body of the response. -/
theorem C2_sendRequest_status_behaviour (config : MyBaseClient.ClientConfig)
    (authorizationToken : String) (rc : MyBaseClient.RequestConfig)
    (response : MyBaseClient.HostResponse)
    (sent : MyBaseClient.SentRequest)
    (hok : MyBaseClient.modifiedRequestConfig config authorizationToken rc =
      .ok sent) :
    ((∃ msg st d,
        MyBaseClient.sendRequest config authorizationToken rc response =
          .error (.httpError msg st d)) ↔ 400 ≤ response.status) ∧
    (400 ≤ response.status →
      MyBaseClient.sendRequest config authorizationToken rc response =
        .error (.httpError ("Received a " ++ toString response.status)
          response.status response.text)) ∧
    (response.status < 400 →
      MyBaseClient.sendRequest config authorizationToken rc response =
        .ok response.json) := by
  rw [MyBaseClient.sendRequest, hok]
  by_cases h : 400 ≤ response.status
  · refine ⟨⟨fun _ => h, fun _ => ?_⟩, fun _ => ?_, fun hlt => ?_⟩
    · exact ⟨"Received a " ++ toString response.status, response.status,
        response.text,
        by simp [MyBaseClient.handleResponse, h,
          MyBaseClient.normalizeError]⟩
    · simp [MyBaseClient.handleResponse, h, MyBaseClient.normalizeError]
    · omega
  · refine ⟨⟨?_, fun hh => absurd hh h⟩, fun hh => absurd hh h, fun _ => ?_⟩
    · rintro ⟨msg, st, d, hed⟩
      simp [MyBaseClient.handleResponse, h] at hed
    · simp [MyBaseClient.handleResponse, h]

/-- The C2 witness request: a plain GET with no headers and JSON
data. -/
def c2Request : MyBaseClient.RequestConfig :=
  ⟨"/api/content", none, none, [], .js .vNull⟩

/-- C2, instantiated: a 404 response throws the `HTTPError` carrying
status and text, a 200 response returns the parsed JSON body. -/
theorem C2_witness :
    MyBaseClient.sendRequest ⟨"https://h", false, []⟩ "Basic t" c2Request
        ⟨404, "Not Found", .vNull⟩ =
      .error (.httpError ("Received a " ++ toString (404 : Nat)) 404
        "Not Found") ∧
    MyBaseClient.sendRequest ⟨"https://h", false, []⟩ "Basic t" c2Request
        ⟨200, "OK", .vStr "body"⟩ =
      .ok (.vStr "body") :=
  ⟨(C2_sendRequest_status_behaviour ⟨"https://h", false, []⟩ "Basic t"
      c2Request ⟨404, "Not Found", .vNull⟩ _ rfl).2.1 (by decide),
   (C2_sendRequest_status_behaviour ⟨"https://h", false, []⟩ "Basic t"
      c2Request ⟨200, "OK", .vStr "body"⟩ _ rfl).2.2 (by decide)⟩

/-- C9: `mapFrontmatterToConfluencePerPageUIValues` throws
`"Missing frontmatter"` exactly when the frontmatter argument is
undefined; for a defined frontmatter it returns a result in which every
config property whose key is present in the frontmatter maps to
`{ value: frontmatter value, isSet: true }`, and every absent property
maps to `isSet: false` with the config default as value for `options`
and `array-text` input types and no value for `boolean` and `text`. -/
theorem C9_mapFrontmatter (config : List
      (String × ConfluencePerPageForm.FrontmatterConfig))
    (fm : List (String × JSValue)) :
    ConfluencePerPageForm.mapFrontmatterToConfluencePerPageUIValues
      config none = .error "Missing frontmatter" ∧
    ∃ out,
      ConfluencePerPageForm.mapFrontmatterToConfluencePerPageUIValues
        config (some fm) = .ok out ∧
      ∀ pk c, (pk, c) ∈ config →
        ((∀ v, jsIndex fm c.key = some v → (pk, ⟨some v, true⟩) ∈ out) ∧
         (jsIndex fm c.key = none →
           ((c.inputType = .options ∨ c.inputType = .arrayText) →
              (pk, ⟨some c.default, false⟩) ∈ out) ∧
           ((c.inputType = .boolean ∨ c.inputType = .text) →
              (pk, ⟨none, false⟩) ∈ out))) := by
  refine ⟨rfl, _, rfl, ?_⟩
  intro pk c hmem
  refine ⟨fun v hv => ?_, fun hv => ⟨fun hty => ?_, fun hty => ?_⟩⟩
  · refine List.mem_map.2 ⟨(pk, c), hmem, ?_⟩
    simp [hv]
  · refine List.mem_map.2 ⟨(pk, c), hmem, ?_⟩
    rcases hty with h | h <;> simp [hv, h]
  · refine List.mem_map.2 ⟨(pk, c), hmem, ?_⟩
    rcases hty with h | h <;> simp [hv, h]

/-- The C9 witness config: a `boolean` and an `options` property, with
only the first key present in the frontmatter. -/
def c9Config : List (String × ConfluencePerPageForm.FrontmatterConfig) :=
  [("publish", ⟨"connie-publish", .boolean, .vNull⟩),
   ("contentType", ⟨"connie-content-type", .options, .vStr "page"⟩)]

/-- C9, instantiated: the undefined-frontmatter throw, and the present
and absent key behaviours on the witness config. -/
theorem C9_witness :
    ConfluencePerPageForm.mapFrontmatterToConfluencePerPageUIValues
      c9Config none = .error "Missing frontmatter" ∧
    ∃ out,
      ConfluencePerPageForm.mapFrontmatterToConfluencePerPageUIValues
        c9Config (some [("connie-publish", JSValue.vBool true)]) =
          .ok out ∧
      ("publish", ⟨some (JSValue.vBool true), true⟩) ∈ out ∧
      ("contentType", ⟨some (JSValue.vStr "page"), false⟩) ∈ out := by
  have h := C9_mapFrontmatter c9Config
    [("connie-publish", JSValue.vBool true)]
  obtain ⟨out, hout, hall⟩ := h.2
  refine ⟨h.1, out, hout, ?_, ?_⟩
  · exact (hall "publish" ⟨"connie-publish", .boolean, .vNull⟩
      (by decide)).1 (JSValue.vBool true) (by decide)
  · exact ((hall "contentType" ⟨"connie-content-type", .options,
      .vStr "page"⟩ (by decide)).2 (by decide)).1 (Or.inl rfl)

/-- C3 counterexample: on a record containing a function-valued
parameter, `paramSerializer` pushes the function's result verbatim
("x") instead of the percent-encoded `key=value` pair the claim
describes, so the claimed description fails on this input. -/
theorem C3_counterexample :
    MyBaseClient.paramSerializer [("a", JSValue.vFun (some "x"))] = "x" ∧
    MyBaseClient.paramSerializer [("a", JSValue.vFun (some "x"))] ≠
      MyBaseClient.claimParamSerializer [("a", JSValue.vFun (some "x"))] := by
  constructor <;> decide

/-- C3 (amended): on every record of request parameters none of whose
values is a function, `paramSerializer` behaves exactly as the claim
describes — `null`/`undefined` entries omitted, arrays joined with
commas, `Date`s replaced by their ISO string, other non-null objects by
their JSON string, each remaining key and value percent-encoded (with
`: $ , [ ]` unescaped and space as `+`) and the pairs joined with
`&`. -/
theorem C3_param_serializer (parameters : List (String × JSValue))
    (h : parameters.all
      (fun kv => !MyBaseClient.isFunctionValue kv.2) = true) :
    MyBaseClient.paramSerializer parameters =
      MyBaseClient.claimParamSerializer parameters := by
  rw [MyBaseClient.paramSerializer, MyBaseClient.claimParamSerializer]
  rw [List.all_eq_true] at h
  congr 1
  induction parameters with
  | nil => rfl
  | cons kv t ih =>
      have hkv := h kv (List.mem_cons_self _ _)
      have ht := fun q hq => h q (List.mem_cons_of_mem _ hq)
      obtain ⟨k, v⟩ := kv
      rw [List.filterMap_cons, List.filterMap_cons, ih ht]
      cases v <;> simp_all [MyBaseClient.serializeParamEntry,
        MyBaseClient.claimSerializeParamEntry, MyBaseClient.isFunctionValue]

/-- The C3 witness parameters: a key and value needing encoding, a
`null`, an `undefined`, an array with a `null` hole, a `Date`, a plain
object and a boolean. -/
def c3Params : List (String × JSValue) :=
  [("k y", .vStr "a b"), ("n", .vNull), ("u", .vUndefined),
   ("arr", .vArr (JSList.ofList [.vNum 1, .vNull, .vStr "x"])),
   ("d", .vDate "2020-01-01T00:00:00.000Z" "Wed Jan 01 2020"),
   ("o", .vObj "\x7b\"a\":1\x7d"), ("b", .vBool true)]

/-- C3, instantiated on the witness parameters (which contain no
function value). -/
theorem C3_witness :
    c3Params.all (fun kv => !MyBaseClient.isFunctionValue kv.2) = true ∧
    MyBaseClient.paramSerializer c3Params =
      MyBaseClient.claimParamSerializer c3Params :=
  ⟨by decide, C3_param_serializer c3Params (by decide)⟩

/-- The C6 counterexample request: the caller's own headers set
`User-Agent`. -/
def c6Request : MyBaseClient.RequestConfig :=
  ⟨"/api/content", none, some [("User-Agent", some "CustomAgent")], [],
   .js .vNull⟩

/-- C6 counterexample: the claim says the sent headers always include a
`User-Agent` of `"Obsidian.md"`, but a request whose own headers set
`User-Agent` overrides the default (the request headers are spread
after it), so the sent request carries `"CustomAgent"` instead. -/
theorem C6_counterexample :
    (MyBaseClient.modifiedRequestConfig
        ⟨"https://example.atlassian.net", false, []⟩ "Basic t"
        c6Request).toOption.map
      (fun sent => jsGet sent.headers "User-Agent") =
      some (some "CustomAgent") ∧
    ("CustomAgent" : String) ≠ "Obsidian.md" := by
  constructor <;> decide

/-- C6 (amended): for every request whose own (normalized) headers and
whose base request config headers do not themselves set `User-Agent`,
`Accept`, `Authorization` or `X-Atlassian-Token`, and whose effective
content type is not `multipart/form-data`, the request handed to the
host's `requestUrl` primitive has URL
`host ++ "/wiki/rest" ++ url ++ "?" ++ serialized params`; its method
is the uppercased request method defaulting to `"GET"`; its headers
include the `User-Agent` `"Obsidian.md"`, an `Accept` of
`"application/json"`, the `Authorization` token, and a `Content-Type`
defaulting to `"application/json"` when the request sets none; the
undefined-valued `X-Atlassian-Token` header is removed when
`noCheckAtlassianToken` is off (and kept as `"no-check"` when on); and
the original `data` field is removed from the sent configuration. -/
theorem C6_sent_request_shape (config : MyBaseClient.ClientConfig)
    (authorizationToken : String) (rc : MyBaseClient.RequestConfig)
    (hua : jsGet ((MyBaseClient.normalizeContentTypeHeader
      rc.headers).getD []) "User-Agent" = none)
    (hacc : jsGet ((MyBaseClient.normalizeContentTypeHeader
      rc.headers).getD []) "Accept" = none)
    (hauth : jsGet ((MyBaseClient.normalizeContentTypeHeader
      rc.headers).getD []) "Authorization" = none)
    (hxat : jsGet ((MyBaseClient.normalizeContentTypeHeader
      rc.headers).getD []) "X-Atlassian-Token" = none)
    (hbua : jsGet config.baseRequestHeaders "User-Agent" = none)
    (hbacc : jsGet config.baseRequestHeaders "Accept" = none)
    (hbxat : jsGet config.baseRequestHeaders "X-Atlassian-Token" = none)
    (hmp : jsStartsWith (MyBaseClient.effectiveContentType rc)
      "multipart/form-data" = false) :
    ∃ sent,
      MyBaseClient.modifiedRequestConfig config authorizationToken rc =
        .ok sent ∧
      sent.url = config.host ++ "/wiki/rest" ++ rc.url ++ "?" ++
        MyBaseClient.paramSerializer rc.params ∧
      sent.method = (rc.method.map MyBaseClient.jsToUpperCase).getD "GET" ∧
      jsGet sent.headers "User-Agent" = some "Obsidian.md" ∧
      jsGet sent.headers "Accept" = some "application/json" ∧
      jsGet sent.headers "Authorization" = some authorizationToken ∧
      jsGet sent.headers "Content-Type" =
        some (MyBaseClient.effectiveContentType rc) ∧
      (jsGet ((MyBaseClient.normalizeContentTypeHeader
          rc.headers).getD []) "Content-Type" = none →
        MyBaseClient.effectiveContentType rc = "application/json") ∧
      (config.noCheckAtlassianToken = false →
        jsGet sent.headers "X-Atlassian-Token" = none) ∧
      (config.noCheckAtlassianToken = true →
        jsGet sent.headers "X-Atlassian-Token" = some "no-check") ∧
      sent.data = none := by
  rw [MyBaseClient.effectiveContentType] at hmp
  rw [MyBaseClient.modifiedRequestConfig]
  simp only [hmp, Bool.false_eq_true, if_false]
  refine ⟨_, rfl, ?_⟩
  set nh := (MyBaseClient.normalizeContentTypeHeader rc.headers).getD []
    with hnh
  set rct := MyBaseClient.requestContentTypeOf
    (MyBaseClient.normalizeContentTypeHeader rc.headers) with hrct
  set start : List (String × Option String) :=
    [("User-Agent", some "Obsidian.md"),
     ("Accept", some "application/json"),
     ("X-Atlassian-Token",
       if config.noCheckAtlassianToken then some "no-check" else none)]
    with hstart
  set M0 := MyBaseClient.spreadInto start config.baseRequestHeaders
    with hM0
  set M1 := MyBaseClient.spreadInto
    (jsSet M0 "Authorization" (some authorizationToken)) nh with hM1
  set H := jsSet M1 "Content-Type" (some rct) with hH
  have hHeaders : MyBaseClient.builtHeaders config authorizationToken
      (MyBaseClient.normalizeContentTypeHeader rc.headers) rct [] =
      MyBaseClient.removeUndefinedProperties H := by
    rw [MyBaseClient.builtHeaders]
    rfl
  have hM1ua : jsGet M1 "User-Agent" = some (some "Obsidian.md") := by
    rw [hM1, jsGet_spreadInto_of_none _ hua,
      jsGet_jsSet_ne _ _ (by decide : "Authorization" ≠ "User-Agent"),
      hM0, jsGet_spreadInto_of_none _ hbua, hstart, jsGet_cons,
      if_pos rfl]
  have hM1acc : jsGet M1 "Accept" = some (some "application/json") := by
    rw [hM1, jsGet_spreadInto_of_none _ hacc,
      jsGet_jsSet_ne _ _ (by decide : "Authorization" ≠ "Accept"),
      hM0, jsGet_spreadInto_of_none _ hbacc, hstart, jsGet_cons,
      if_neg (by decide : ¬ ("User-Agent" = "Accept")), jsGet_cons,
      if_pos rfl]
  have hM1auth : jsGet M1 "Authorization" = some (some authorizationToken) := by
    rw [hM1, jsGet_spreadInto_of_none _ hauth, jsGet_jsSet_self]
  refine ⟨rfl, rfl, ?_, ?_, ?_, ?_, ?_, ?_, ?_, rfl⟩
  · show jsGet (MyBaseClient.builtHeaders config authorizationToken
      (MyBaseClient.normalizeContentTypeHeader rc.headers) rct [])
        "User-Agent" = some "Obsidian.md"
    rw [hHeaders]
    refine jsGet_removeUndefinedProperties_of_some ?_
    rw [hH, jsGet_jsSet_ne _ _
      (by decide : "Content-Type" ≠ "User-Agent")]
    exact hM1ua
  · show jsGet (MyBaseClient.builtHeaders config authorizationToken
      (MyBaseClient.normalizeContentTypeHeader rc.headers) rct [])
        "Accept" = some "application/json"
    rw [hHeaders]
    refine jsGet_removeUndefinedProperties_of_some ?_
    rw [hH, jsGet_jsSet_ne _ _ (by decide : "Content-Type" ≠ "Accept")]
    exact hM1acc
  · show jsGet (MyBaseClient.builtHeaders config authorizationToken
      (MyBaseClient.normalizeContentTypeHeader rc.headers) rct [])
        "Authorization" = some authorizationToken
    rw [hHeaders]
    refine jsGet_removeUndefinedProperties_of_some ?_
    rw [hH, jsGet_jsSet_ne _ _
      (by decide : "Content-Type" ≠ "Authorization")]
    exact hM1auth
  · show jsGet (MyBaseClient.builtHeaders config authorizationToken
      (MyBaseClient.normalizeContentTypeHeader rc.headers) rct [])
        "Content-Type" = some (MyBaseClient.effectiveContentType rc)
    rw [hHeaders]
    refine jsGet_removeUndefinedProperties_of_some ?_
    rw [hH, jsGet_jsSet_self]
    rfl
  · intro hct
    show MyBaseClient.effectiveContentType rc = "application/json"
    rw [MyBaseClient.effectiveContentType, MyBaseClient.requestContentTypeOf]
    rw [show jsGet ((MyBaseClient.normalizeContentTypeHeader
      rc.headers).getD []) "Content-Type" = none from hct]
  · intro hfalse
    show jsGet (MyBaseClient.builtHeaders config authorizationToken
      (MyBaseClient.normalizeContentTypeHeader rc.headers) rct [])
        "X-Atlassian-Token" = none
    rw [hHeaders]
    refine jsGet_removeUndefinedProperties_of_keyAllUndefined ?_
    have hstartAll : keyAllUndefined start "X-Atlassian-Token" := by
      rw [hstart, hfalse]
      intro p hp hk
      rcases List.mem_cons.1 hp with rfl | hp1
      · exact absurd hk (by decide)
      rcases List.mem_cons.1 hp1 with rfl | hp2
      · exact absurd hk (by decide)
      rcases List.mem_cons.1 hp2 with rfl | hp3
      · simp
      · exact absurd hp3 (List.not_mem_nil p)
    have h0 : keyAllUndefined M0 "X-Atlassian-Token" := by
      rw [hM0]
      exact keyAllUndefined_spreadInto _ hstartAll hbxat
    have h1 : keyAllUndefined M1 "X-Atlassian-Token" := by
      rw [hM1]
      exact keyAllUndefined_spreadInto _
        (keyAllUndefined_jsSet h0
          (by decide : "Authorization" ≠ "X-Atlassian-Token")) hxat
    rw [hH]
    exact keyAllUndefined_jsSet h1
      (by decide : "Content-Type" ≠ "X-Atlassian-Token")
  · intro htrue
    show jsGet (MyBaseClient.builtHeaders config authorizationToken
      (MyBaseClient.normalizeContentTypeHeader rc.headers) rct [])
        "X-Atlassian-Token" = some "no-check"
    rw [hHeaders]
    refine jsGet_removeUndefinedProperties_of_some ?_
    rw [hH, jsGet_jsSet_ne _ _
      (by decide : "Content-Type" ≠ "X-Atlassian-Token"),
      hM1, jsGet_spreadInto_of_none _ hxat,
      jsGet_jsSet_ne _ _
        (by decide : "Authorization" ≠ "X-Atlassian-Token"),
      hM0, jsGet_spreadInto_of_none _ hbxat, hstart, htrue, jsGet_cons,
      if_neg (by decide : ¬ ("User-Agent" = "X-Atlassian-Token")),
      jsGet_cons,
      if_neg (by decide : ¬ ("Accept" = "X-Atlassian-Token")),
      jsGet_cons, if_pos rfl]
    rfl

/-- The C6 witness request: a POST with no headers of its own. -/
def c6WitnessRequest : MyBaseClient.RequestConfig :=
  ⟨"/api/content", some "post", none, [("a", .vStr "b c")], .js .vNull⟩

/-- C6 (amended), instantiated: the built request for the witness
request, with every hypothesis evaluated on the concrete input. -/
theorem C6_witness :
    ∃ sent,
      MyBaseClient.modifiedRequestConfig ⟨"https://h", false, []⟩
        "Basic t" c6WitnessRequest = .ok sent ∧
      sent.url = "https://h" ++ "/wiki/rest" ++ "/api/content" ++ "?" ++
        MyBaseClient.paramSerializer [("a", .vStr "b c")] ∧
      sent.method = ((some "post").map MyBaseClient.jsToUpperCase).getD
        "GET" ∧
      jsGet sent.headers "User-Agent" = some "Obsidian.md" ∧
      jsGet sent.headers "Accept" = some "application/json" ∧
      jsGet sent.headers "Authorization" = some "Basic t" ∧
      jsGet sent.headers "Content-Type" =
        some (MyBaseClient.effectiveContentType c6WitnessRequest) ∧
      jsGet sent.headers "X-Atlassian-Token" = none ∧
      sent.data = none := by
  obtain ⟨sent, h1, h2, h3, h4, h5, h6, h7, _h8, h9, _h10, h11⟩ :=
    C6_sent_request_shape ⟨"https://h", false, []⟩ "Basic t"
      c6WitnessRequest (by decide) (by decide) (by decide) (by decide)
      (by decide) (by decide) (by decide) (by decide)
  exact ⟨sent, h1, h2, h3, h4, h5, h6, h7, h9 rfl, h11⟩
